import Mathlib

/-!
Verification of the obsidian-vox transcription core: a shallow embedding of
the TranscriptionProcessor (src/processors, file part_014) and of
waitForFileStability (src/utils/fileStability.ts), with theorems checking
the specification's claims about retry/backoff, the per-candidate lifecycle
state machine, discovery filtering and the file-stability polling loop.

Modelling conventions:
- JS Date values are Nat millisecond timestamps passed explicitly (the code
  calls new Date() / Date.now() at each mutation; the model receives the
  observed time as an argument).
- The StatusMap (VoxStatusMap, a JS object keyed by content hash) is a
  function map String to Option VoxStatusItem.
- JS numbers used here are integers (retry counts, delays in ms, sizes in
  bytes), embedded as Nat.
- The p-queue itself is external; the model captures the processor state
  (running flag and StatusMap), the enqueued-job list where a claim needs
  it, and the scheduling decision the error handler takes (pause queue /
  permanent failure / retry after a delay).
-/

namespace Vox

/-- Lifecycle status of a transcription candidate, from VoxStatusItemStatus
in src/types.ts. -/
inductive VoxStatusItemStatus
  | QUEUED
  | PROCESSING_AUDIO
  | TRANSCRIBING
  | COMPLETE
  | FAILED
deriving DecidableEq, Repr

/-- FileDetail from src/types.ts: location descriptors of a file. -/
structure FileDetail where
  name : String
  filename : String
  extension : String
  directory : String
  filepath : String
deriving DecidableEq, Repr

/-- TranscriptionCandidate (part_014): FileDetail plus transcribed flag and
content hash. -/
structure TranscriptionCandidate extends FileDetail where
  isTranscribed : Bool
  hash : String
deriving DecidableEq, Repr

/-- VoxStatusItem from src/types.ts, with the retryCount / lastRetryAt
fields the TranscriptionProcessor (part_014) reads and writes on it.
Timestamps are Nat milliseconds. -/
structure VoxStatusItem where
  hash : String
  details : TranscriptionCandidate
  status : VoxStatusItemStatus
  addedAt : Nat
  finalizedAt : Option Nat
  retryCount : Nat
  lastRetryAt : Option Nat
deriving DecidableEq, Repr

/-- VoxStatusMap: JS object keyed by content hash, modelled as a function
map. -/
def VoxStatusMap : Type := String → Option VoxStatusItem

/-- Pointwise update of the status map (JS property assignment). -/
def mapUpdate (m : VoxStatusMap) (k : String) (v : VoxStatusItem) : VoxStatusMap :=
  fun k2 => if k2 = k then some v else m k2

/-- The retry-relevant part of the plugin Settings (src/settings/index.ts). -/
structure Settings where
  maxRetries : Nat
  retryBaseDelayMs : Nat
  retryMaxDelayMs : Nat
deriving DecidableEq, Repr

/-- DEFAULT_SETTINGS values from src/settings/index.ts:
maxRetries 3, retryBaseDelayMs 5000, retryMaxDelayMs 300000. -/
def defaultSettings : Settings :=
  { maxRetries := 3, retryBaseDelayMs := 5000, retryMaxDelayMs := 300000 }

/-- TranscriptionProcessorState (part_014): running flag plus the items
StatusMap. -/
structure ProcessorState where
  running : Bool
  items : VoxStatusMap

/-- The processor's initial state: running, no items. -/
def emptyState : ProcessorState :=
  { running := true, items := fun _ => none }

/-- calculateBackoffDelay (part_014):
min(retryBaseDelayMs * 2 ^ retryCount, retryMaxDelayMs). -/
def calculateBackoffDelay (settings : Settings) (retryCount : Nat) : Nat :=
  min (settings.retryBaseDelayMs * 2 ^ retryCount) settings.retryMaxDelayMs

/-- setCanditateStatus (part_014, name kept with its source spelling):
recomputes running from the queue's paused flag, stamps finalizedAt exactly
when the new status is COMPLETE or FAILED, and either patches the existing
record (spread keeps retryCount / lastRetryAt / addedAt) or creates a fresh
record with retryCount 0. -/
def setCanditateStatus (queuePaused : Bool) (now : Nat)
    (candidate : TranscriptionCandidate) (status : VoxStatusItemStatus)
    (s : ProcessorState) : ProcessorState :=
  let finalized : Bool := status == .COMPLETE || status == .FAILED
  let finalizedAt : Option Nat := if finalized then some now else none
  match s.items candidate.hash with
  | some item =>
      let patched : VoxStatusItem := { item with finalizedAt := finalizedAt, status := status }
      { running := !queuePaused, items := mapUpdate s.items candidate.hash patched }
  | none =>
      let fresh : VoxStatusItem :=
        { hash := candidate.hash, details := candidate, status := status,
          addedAt := now, finalizedAt := finalizedAt, retryCount := 0, lastRetryAt := none }
      { running := !queuePaused, items := mapUpdate s.items candidate.hash fresh }

/-- incrementRetryCount (part_014): bump retryCount and stamp lastRetryAt
when the candidate is tracked; otherwise no state change. -/
def incrementRetryCount (now : Nat) (candidate : TranscriptionCandidate)
    (s : ProcessorState) : ProcessorState :=
  match s.items candidate.hash with
  | some item =>
      let bumped : VoxStatusItem :=
        { item with retryCount := item.retryCount + 1, lastRetryAt := some now }
      { s with items := mapUpdate s.items candidate.hash bumped }
  | none => s

/-- Classification of the error caught by processFile: an axios error with
HTTP 429 (TooManyRequests), an axios error with any other status, or a
non-axios error (for example the Error thrown by response validation). -/
inductive TranscriptionError
  | rateLimit
  | connection
  | generic
deriving DecidableEq, Repr

/-- The scheduling decision handleTranscriptionError takes after mutating
the StatusMap: pause the whole queue (429), give up permanently, or
schedule a retry via setTimeout after the given backoff delay. -/
inductive RetryDecision
  | pauseQueue
  | permanentFailure
  | retryAfter (delayMs : Nat)
deriving DecidableEq, Repr

/-- handleTranscriptionError (part_014). Reads the current retry count
(0 when untracked), increments it, then: on a 429 axios error marks FAILED
and pauses the queue; else if the new count reached maxRetries marks FAILED
permanently; else sets the status back to QUEUED and schedules a retry
after calculateBackoffDelay of the pre-increment count.
queuePaused is the queue's paused flag before this call (the 429 branch
calls queue.pause() only after setCanditateStatus has run). -/
def handleTranscriptionError (settings : Settings) (queuePaused : Bool) (now : Nat)
    (audioFile : TranscriptionCandidate) (error : TranscriptionError)
    (s : ProcessorState) : ProcessorState × RetryDecision :=
  let currentRetryCount : Nat :=
    match s.items audioFile.hash with
    | some item => item.retryCount
    | none => 0
  let s1 := incrementRetryCount now audioFile s
  let newRetryCount := currentRetryCount + 1
  if error = .rateLimit then
    (setCanditateStatus queuePaused now audioFile .FAILED s1, .pauseQueue)
  else if settings.maxRetries ≤ newRetryCount then
    (setCanditateStatus queuePaused now audioFile .FAILED s1, .permanentFailure)
  else
    (setCanditateStatus queuePaused now audioFile .QUEUED s1,
      .retryAfter (calculateBackoffDelay settings currentRetryCount))

/-- hasExceededMaxRetries (part_014): false for an untracked hash; otherwise
true exactly when retryCount has reached maxRetries and the status is
FAILED. -/
def hasExceededMaxRetries (settings : Settings) (s : ProcessorState)
    (candidate : TranscriptionCandidate) : Bool :=
  match s.items candidate.hash with
  | none => false
  | some item =>
      decide (settings.maxRetries ≤ item.retryCount) && decide (item.status = .FAILED)

/-- The per-file selection test of getUnprocessedFiles (part_014): a file is
kept as an unprocessed candidate when it is not already transcribed and has
not permanently failed. (The surrounding shuffle and the FILE_CHUNK_LIMIT
cap of 24 are fairness / batching concerns that do not change this per-file
test.) -/
def selectedByScan (settings : Settings) (s : ProcessorState)
    (candidate : TranscriptionCandidate) : Bool :=
  !candidate.isTranscribed && !hasExceededMaxRetries settings s candidate

/-- queueFile (part_014): adds the processFile job for this candidate to the
p-queue and shows a Notice. It performs no StatusMap mutation: the pair is
the new pending-job list and the unchanged processor state. -/
def queueFile (pending : List TranscriptionCandidate)
    (audioFile : TranscriptionCandidate) (s : ProcessorState) :
    List TranscriptionCandidate × ProcessorState :=
  (pending ++ [audioFile], s)

/-- The StatusMap effect of queueFiles (part_014): every unprocessed
candidate is marked QUEUED via setCanditateStatus before the jobs are added
to the p-queue. -/
def queueFiles (queuePaused : Bool) (now : Nat)
    (unprocessed : List TranscriptionCandidate) (s : ProcessorState) : ProcessorState :=
  List.foldl (fun acc audio => setCanditateStatus queuePaused now audio .QUEUED acc)
    s unprocessed

/-- One transcript segment. The source TranscriptionSegment (src/types.ts)
also carries float timing and probability fields; no claim reads them, and
only the segments list structure matters to the validation logic, so the
model keeps the integer id and the text. -/
structure TranscriptionSegment where
  id : Nat
  text : String
deriving DecidableEq, Repr

/-- The segments field of the JSON response body as the validation in
transcribe (part_014) distinguishes it: absent (falsy), present but not an
array, or an actual array of segments. -/
inductive SegmentsField
  | missing
  | notArray
  | value (segs : List TranscriptionSegment)
deriving DecidableEq, Repr

/-- The fields of response.data that transcribe (part_014) validates. text
is none when the field is absent (undefined / null). -/
structure RawTranscriptionResponse where
  text : Option String
  segments : SegmentsField
deriving DecidableEq, Repr

/-- JS falsiness of response.data.text: absent or the empty string. -/
def textFalsy : Option String → Bool
  | none => true
  | some s => s == ""

/-- The validation chain of transcribe (part_014) on a resolved axios
response: reject when data is absent or the HTTP status is not 200; reject
when text is falsy or segments is missing or not an array (one combined
check in the source); reject an empty segments array; otherwise return the
data. -/
def transcribeValidate (hasData : Bool) (status : Nat)
    (r : RawTranscriptionResponse) : Except String RawTranscriptionResponse :=
  if hasData = false ∨ status ≠ 200 then
    .error "Invalid response status"
  else if textFalsy r.text then
    .error "Invalid transcription response: missing required fields"
  else
    match r.segments with
    | .missing => .error "Invalid transcription response: missing required fields"
    | .notArray => .error "Invalid transcription response: missing required fields"
    | .value segs =>
        if segs.length = 0 then .error "Transcription returned empty segments array"
        else .ok r

/-- How the awaited transcribe call ends, as seen from processFile: the
promise rejects (network failure, timeout, or one of the validation throws
summarised by transcribeValidate), or it resolves with a response body. -/
inductive TranscribeCall
  | throws (e : TranscriptionError)
  | resolves (hasData : Bool) (status : Nat) (r : RawTranscriptionResponse)

/-- The transcription leg of processFile (part_014): set PROCESSING_AUDIO,
then TRANSCRIBING, then await transcribe. A rejection is caught and routed
to handleTranscriptionError with the thrown error; a resolved but invalid
response throws inside transcribe and is routed to the handler as a plain
(non-axios) Error; a validated response proceeds to consolidation and the
status becomes COMPLETE. (A validated response always passes the JS
truthiness guard transcribed && transcribed.segments, since even an empty
array is truthy and validation already excluded the falsy shapes.) The
second component is the handler's decision, none on success. -/
def processFileTranscription (settings : Settings) (queuePaused : Bool)
    (t1 t2 t3 : Nat) (c : TranscriptionCandidate) (call : TranscribeCall)
    (s : ProcessorState) : ProcessorState × Option RetryDecision :=
  let s1 := setCanditateStatus queuePaused t1 c VoxStatusItemStatus.PROCESSING_AUDIO s
  let s2 := setCanditateStatus queuePaused t2 c .TRANSCRIBING s1
  match call with
  | .throws e =>
      let r := handleTranscriptionError settings queuePaused t3 c e s2
      (r.1, some r.2)
  | .resolves hasData status raw =>
      match transcribeValidate hasData status raw with
      | .error _ =>
          let r := handleTranscriptionError settings queuePaused t3 c .generic s2
          (r.1, some r.2)
      | .ok _ => (setCanditateStatus queuePaused t3 c .COMPLETE s2, none)

/-- n consecutive failing attempts on one candidate: each attempt runs the
processFile legs and ends in handleTranscriptionError with the same error
kind; tm gives the timestamp of the n-th attempt. -/
def failAttempts (settings : Settings) (queuePaused : Bool) (tm : Nat → Nat)
    (c : TranscriptionCandidate) (err : TranscriptionError)
    (s : ProcessorState) : Nat → ProcessorState
  | 0 => s
  | n + 1 =>
      (processFileTranscription settings queuePaused (tm n) (tm n) (tm n) c
        (.throws err) (failAttempts settings queuePaused tm c err s n)).1

/-! The file-stability polling loop of waitForFileStability
(src/utils/fileStability.ts). Each poll stats the file; the model's trace is
the list of (Date.now, stat.size) observations of successful stats (the
reject paths for a missing file or failing stat end the wait and are
outside the claims modelled here). The source also counts checks against a
maxChecks bound, but that variable is never consulted, so polling continues
indefinitely. -/

/-- The closure state of waitForFileStability: lastSize and the time the
current stable run started (both JS null initially). -/
structure StabState where
  lastSize : Option Nat
  stableStartTime : Option Nat
deriving DecidableEq, Repr

/-- The initial closure state: lastSize = null, stableStartTime = null. -/
def initStabState : StabState := { lastSize := none, stableStartTime := none }

/-- Outcome of one checkFile poll: resolve the promise, or keep polling with
the updated closure state. -/
inductive CheckOutcome
  | resolved
  | keepPolling (st : StabState)
deriving DecidableEq, Repr

/-- One poll of checkFile (fileStability.ts) at time now observing size:
size 0 resets both trackers; a first or changed non-zero size resets the
stability timer (the source merges these as lastSize === null or
currentSize !== lastSize); an unchanged non-zero size starts the timer if
unset and resolves once now - stableStartTime reaches stabilityDelayMs. -/
def checkFile (stabilityDelayMs : Nat) (st : StabState) (now size : Nat) :
    CheckOutcome :=
  if size = 0 then
    .keepPolling { lastSize := none, stableStartTime := none }
  else
    match st.lastSize with
    | none => .keepPolling { lastSize := some size, stableStartTime := none }
    | some last =>
        if size ≠ last then
          .keepPolling { lastSize := some size, stableStartTime := none }
        else
          let start := st.stableStartTime.getD now
          if stabilityDelayMs ≤ now - start then .resolved
          else .keepPolling { lastSize := some size, stableStartTime := some start }

/-- Run the polling loop over a trace of (now, size) observations; some t
when the wait resolves at time t, none when the trace ends with the loop
still polling. -/
def runStabilityTime (d : Nat) (st : StabState) :
    List (Nat × Nat) → Option Nat
  | [] => none
  | (now, size) :: rest =>
      match checkFile d st now size with
      | .resolved => some now
      | .keepPolling st2 => runStabilityTime d st2 rest

/-- Run the polling loop over a trace; some final closure state when it is
still polling after the trace, none when it resolved along the way. -/
def runState (d : Nat) (st : StabState) :
    List (Nat × Nat) → Option StabState
  | [] => some st
  | (now, size) :: rest =>
      match checkFile d st now size with
      | .resolved => none
      | .keepPolling st2 => runState d st2 rest

/-! Helper lemmas about the StatusMap mutators. -/

theorem mapUpdate_self (m : VoxStatusMap) (k : String) (v : VoxStatusItem) :
    mapUpdate m k v k = some v := by
  simp [mapUpdate]

theorem mapUpdate_ne (m : VoxStatusMap) (k k2 : String) (v : VoxStatusItem)
    (h : k2 ≠ k) : mapUpdate m k v k2 = m k2 := by
  simp [mapUpdate, h]

theorem setCanditateStatus_existing (qp : Bool) (now : Nat)
    (c : TranscriptionCandidate) (st : VoxStatusItemStatus) (s : ProcessorState)
    (item : VoxStatusItem) (h : s.items c.hash = some item) :
    (setCanditateStatus qp now c st s).items c.hash =
      some { item with
        status := st,
        finalizedAt := if st == .COMPLETE || st == .FAILED then some now else none } := by
  simp [setCanditateStatus, h, mapUpdate]

theorem setCanditateStatus_fresh (qp : Bool) (now : Nat)
    (c : TranscriptionCandidate) (st : VoxStatusItemStatus) (s : ProcessorState)
    (h : s.items c.hash = none) :
    (setCanditateStatus qp now c st s).items c.hash =
      some { hash := c.hash, details := c, status := st, addedAt := now,
             finalizedAt := if st == .COMPLETE || st == .FAILED then some now else none,
             retryCount := 0, lastRetryAt := none } := by
  simp [setCanditateStatus, h, mapUpdate]

theorem setCanditateStatus_other (qp : Bool) (now : Nat)
    (c : TranscriptionCandidate) (st : VoxStatusItemStatus) (s : ProcessorState)
    (k : String) (hk : k ≠ c.hash) :
    (setCanditateStatus qp now c st s).items k = s.items k := by
  cases hx : s.items c.hash <;> simp [setCanditateStatus, hx, mapUpdate, hk]

theorem incrementRetryCount_existing (now : Nat) (c : TranscriptionCandidate)
    (s : ProcessorState) (item : VoxStatusItem) (h : s.items c.hash = some item) :
    (incrementRetryCount now c s).items c.hash =
      some { item with retryCount := item.retryCount + 1, lastRetryAt := some now } := by
  simp [incrementRetryCount, h, mapUpdate]

theorem incrementRetryCount_none (now : Nat) (c : TranscriptionCandidate)
    (s : ProcessorState) (h : s.items c.hash = none) :
    incrementRetryCount now c s = s := by
  simp [incrementRetryCount, h]

theorem incrementRetryCount_other (now : Nat) (c : TranscriptionCandidate)
    (s : ProcessorState) (k : String) (hk : k ≠ c.hash) :
    (incrementRetryCount now c s).items k = s.items k := by
  cases hx : s.items c.hash <;> simp [incrementRetryCount, hx, mapUpdate, hk]

/-- A concrete candidate used by the closed witnesses and counterexamples. -/
def cand1 : TranscriptionCandidate :=
  { name := "memo", filename := "memo.m4a", extension := ".m4a",
    directory := "voice-memos", filepath := "voice-memos/memo.m4a",
    isTranscribed := false, hash := "h1" }

/-- C1: the backoff delay computed for the r-th failure is
min(retryBaseDelayMs * 2^r, retryMaxDelayMs), is non-decreasing in r,
is bounded above by retryMaxDelayMs, and for r = 0 (the first retry) equals
retryBaseDelayMs (given the configured base does not exceed the cap). -/
theorem backoffDelay_spec (settings : Settings) (r : Nat)
    (hbm : settings.retryBaseDelayMs ≤ settings.retryMaxDelayMs) :
    calculateBackoffDelay settings r =
      min (settings.retryBaseDelayMs * 2 ^ r) settings.retryMaxDelayMs ∧
    calculateBackoffDelay settings r ≤ calculateBackoffDelay settings (r + 1) ∧
    calculateBackoffDelay settings r ≤ settings.retryMaxDelayMs ∧
    calculateBackoffDelay settings 0 = settings.retryBaseDelayMs := by
  refine ⟨rfl, ?_, ?_, ?_⟩
  · exact min_le_min
      (Nat.mul_le_mul le_rfl (Nat.pow_le_pow_right (by decide) (Nat.le_succ r))) le_rfl
  · exact min_le_right _ _
  · show min (settings.retryBaseDelayMs * 2 ^ 0) settings.retryMaxDelayMs = _
    rw [pow_zero, Nat.mul_one]
    exact Nat.min_eq_left hbm

/-- C1 witness: the backoff specification at the default settings
(base 5000 ms, cap 300000 ms) and retry count 4. -/
theorem backoffDelay_spec_witness :
    defaultSettings.retryBaseDelayMs ≤ defaultSettings.retryMaxDelayMs ∧
    (calculateBackoffDelay defaultSettings 4 =
        min (defaultSettings.retryBaseDelayMs * 2 ^ 4) defaultSettings.retryMaxDelayMs ∧
      calculateBackoffDelay defaultSettings 4 ≤ calculateBackoffDelay defaultSettings (4 + 1) ∧
      calculateBackoffDelay defaultSettings 4 ≤ defaultSettings.retryMaxDelayMs ∧
      calculateBackoffDelay defaultSettings 0 = defaultSettings.retryBaseDelayMs) :=
  ⟨by decide, backoffDelay_spec defaultSettings 4 (by decide)⟩

/-- C10: the permanent-failure exclusion check returns false for every hash
with no LifecycleRecord in the session StatusMap, and returns true exactly
when the existing record has both retryCount at least maxRetries and status
FAILED. -/
theorem hasExceededMaxRetries_spec (settings : Settings) (s : ProcessorState)
    (c : TranscriptionCandidate) :
    (s.items c.hash = none → hasExceededMaxRetries settings s c = false) ∧
    (hasExceededMaxRetries settings s c = true ↔
      ∃ item, s.items c.hash = some item ∧
        settings.maxRetries ≤ item.retryCount ∧ item.status = .FAILED) := by
  constructor
  · intro h
    simp [hasExceededMaxRetries, h]
  · cases hx : s.items c.hash with
    | none => simp [hasExceededMaxRetries, hx]
    | some item => simp [hasExceededMaxRetries, hx, and_assoc]

/-- C8: the finalizedAt invariant. An item satisfies it when finalizedAt is
set exactly for the terminal statuses COMPLETE and FAILED. -/
def itemFinalizedInv (item : VoxStatusItem) : Prop :=
  item.finalizedAt ≠ none ↔ (item.status = .COMPLETE ∨ item.status = .FAILED)

/-- C8: the invariant over every record of the StatusMap. -/
def stateFinalizedInv (s : ProcessorState) : Prop :=
  ∀ k item, s.items k = some item → itemFinalizedInv item

theorem emptyState_inv : stateFinalizedInv emptyState :=
  fun _ _ h => Option.noConfusion h

/-- C8: both StatusMap mutators preserve the invariant that finalizedAt is
non-null exactly when the status is COMPLETE or FAILED: a status transition
via setCanditateStatus (which stamps or clears finalizedAt together with
the status) and a retry-count increment (which touches neither field). -/
theorem finalizedAt_invariant (qp : Bool) (now : Nat) (c : TranscriptionCandidate)
    (st : VoxStatusItemStatus) (s : ProcessorState) (hinv : stateFinalizedInv s) :
    stateFinalizedInv (setCanditateStatus qp now c st s) ∧
    stateFinalizedInv (incrementRetryCount now c s) := by
  constructor
  · intro k item h
    by_cases hk : k = c.hash
    · subst hk
      cases hx : s.items c.hash with
      | some old =>
          rw [setCanditateStatus_existing qp now c st s old hx, Option.some.injEq] at h
          subst h
          cases st <;> simp [itemFinalizedInv]
      | none =>
          rw [setCanditateStatus_fresh qp now c st s hx, Option.some.injEq] at h
          subst h
          cases st <;> simp [itemFinalizedInv]
    · rw [setCanditateStatus_other qp now c st s k hk] at h
      exact hinv k item h
  · intro k item h
    by_cases hk : k = c.hash
    · subst hk
      cases hx : s.items c.hash with
      | some old =>
          rw [incrementRetryCount_existing now c s old hx, Option.some.injEq] at h
          subst h
          simpa [itemFinalizedInv] using hinv c.hash old hx
      | none =>
          rw [incrementRetryCount_none now c s hx] at h
          exact hinv c.hash item h
    · rw [incrementRetryCount_other now c s k hk] at h
      exact hinv k item h

/-- C8 witness: the invariant holds on the empty session and is preserved by
a concrete COMPLETE transition and a concrete retry-count increment. -/
theorem finalizedAt_invariant_witness :
    stateFinalizedInv emptyState ∧
    (stateFinalizedInv (setCanditateStatus false 7 cand1 .COMPLETE emptyState) ∧
      stateFinalizedInv (incrementRetryCount 7 cand1 emptyState)) :=
  ⟨emptyState_inv, finalizedAt_invariant false 7 cand1 .COMPLETE emptyState emptyState_inv⟩

/-! The error handler and the processFile legs on a tracked candidate. -/

theorem handleError_existing (settings : Settings) (qp : Bool) (now : Nat)
    (c : TranscriptionCandidate) (err : TranscriptionError) (s : ProcessorState)
    (item : VoxStatusItem) (herr : err ≠ .rateLimit) (h : s.items c.hash = some item) :
    (handleTranscriptionError settings qp now c err s).1.items c.hash =
      some { item with
        retryCount := item.retryCount + 1, lastRetryAt := some now,
        status := if settings.maxRetries ≤ item.retryCount + 1 then .FAILED else .QUEUED,
        finalizedAt := if settings.maxRetries ≤ item.retryCount + 1 then some now else none } ∧
    (handleTranscriptionError settings qp now c err s).2 =
      (if settings.maxRetries ≤ item.retryCount + 1 then .permanentFailure
       else .retryAfter (calculateBackoffDelay settings item.retryCount)) := by
  have hi := incrementRetryCount_existing now c s item h
  by_cases hm : settings.maxRetries ≤ item.retryCount + 1
  · have hs := setCanditateStatus_existing qp now c .FAILED (incrementRetryCount now c s) _ hi
    constructor
    · simp only [handleTranscriptionError, h]
      rw [if_neg herr, if_pos hm]
      simpa [hm] using hs
    · simp only [handleTranscriptionError, h]
      rw [if_neg herr, if_pos hm]
      simp [hm]
  · have hs := setCanditateStatus_existing qp now c .QUEUED (incrementRetryCount now c s) _ hi
    constructor
    · simp only [handleTranscriptionError, h]
      rw [if_neg herr, if_neg hm]
      simpa [hm] using hs
    · simp only [handleTranscriptionError, h]
      rw [if_neg herr, if_neg hm]
      simp [hm]

theorem handleError_rateLimit (settings : Settings) (qp : Bool) (now : Nat)
    (c : TranscriptionCandidate) (s : ProcessorState) (item : VoxStatusItem)
    (h : s.items c.hash = some item) :
    (handleTranscriptionError settings qp now c .rateLimit s).1.items c.hash =
      some { item with
        retryCount := item.retryCount + 1, lastRetryAt := some now,
        status := .FAILED, finalizedAt := some now } ∧
    (handleTranscriptionError settings qp now c .rateLimit s).2 = .pauseQueue := by
  have hi := incrementRetryCount_existing now c s item h
  have hs := setCanditateStatus_existing qp now c .FAILED (incrementRetryCount now c s) _ hi
  constructor
  · simp only [handleTranscriptionError, h]
    simpa using hs
  · simp [handleTranscriptionError, h]

theorem processFail_existing (settings : Settings) (qp : Bool) (t1 t2 t3 : Nat)
    (c : TranscriptionCandidate) (err : TranscriptionError) (s : ProcessorState)
    (item : VoxStatusItem) (herr : err ≠ .rateLimit) (h : s.items c.hash = some item) :
    (processFileTranscription settings qp t1 t2 t3 c (.throws err) s).1.items c.hash =
      some { item with
        retryCount := item.retryCount + 1, lastRetryAt := some t3,
        status := if settings.maxRetries ≤ item.retryCount + 1 then .FAILED else .QUEUED,
        finalizedAt := if settings.maxRetries ≤ item.retryCount + 1 then some t3 else none } ∧
    (processFileTranscription settings qp t1 t2 t3 c (.throws err) s).2 =
      some (if settings.maxRetries ≤ item.retryCount + 1 then .permanentFailure
            else .retryAfter (calculateBackoffDelay settings item.retryCount)) := by
  have e1 := setCanditateStatus_existing qp t1 c VoxStatusItemStatus.PROCESSING_AUDIO s item h
  have e2 := setCanditateStatus_existing qp t2 c .TRANSCRIBING
    (setCanditateStatus qp t1 c VoxStatusItemStatus.PROCESSING_AUDIO s) _ e1
  have e2n : (setCanditateStatus qp t2 c .TRANSCRIBING
      (setCanditateStatus qp t1 c VoxStatusItemStatus.PROCESSING_AUDIO s)).items c.hash =
      some { item with status := .TRANSCRIBING, finalizedAt := none } := by
    simpa using e2
  have hh := handleError_existing settings qp t3 c err _ _ herr e2n
  constructor
  · simp only [processFileTranscription]
    simpa using hh.1
  · simp only [processFileTranscription]
    simpa using hh.2

theorem processSuccess_existing (settings : Settings) (qp : Bool) (t1 t2 t3 : Nat)
    (c : TranscriptionCandidate) (s : ProcessorState) (item : VoxStatusItem)
    (txt : String) (segs : List TranscriptionSegment)
    (htxt : txt ≠ "") (hsegs : segs ≠ []) (h : s.items c.hash = some item) :
    (processFileTranscription settings qp t1 t2 t3 c
        (.resolves true 200 { text := some txt, segments := .value segs }) s).1.items c.hash =
      some { item with status := .COMPLETE, finalizedAt := some t3 } ∧
    (processFileTranscription settings qp t1 t2 t3 c
        (.resolves true 200 { text := some txt, segments := .value segs }) s).2 = none := by
  have hv : transcribeValidate true 200 { text := some txt, segments := .value segs } =
      .ok { text := some txt, segments := .value segs } := by
    simp [transcribeValidate, textFalsy, htxt, hsegs]
  have e1 := setCanditateStatus_existing qp t1 c VoxStatusItemStatus.PROCESSING_AUDIO s item h
  have e2 := setCanditateStatus_existing qp t2 c .TRANSCRIBING
    (setCanditateStatus qp t1 c VoxStatusItemStatus.PROCESSING_AUDIO s) _ e1
  have e2n : (setCanditateStatus qp t2 c .TRANSCRIBING
      (setCanditateStatus qp t1 c VoxStatusItemStatus.PROCESSING_AUDIO s)).items c.hash =
      some { item with status := .TRANSCRIBING, finalizedAt := none } := by
    simpa using e2
  have e3 := setCanditateStatus_existing qp t3 c .COMPLETE
    (setCanditateStatus qp t2 c .TRANSCRIBING
      (setCanditateStatus qp t1 c VoxStatusItemStatus.PROCESSING_AUDIO s)) _ e2n
  constructor
  · simp only [processFileTranscription, hv]
    simpa using e3
  · simp only [processFileTranscription, hv]

theorem failAttempts_tracked (settings : Settings) (qp : Bool) (tm : Nat → Nat)
    (c : TranscriptionCandidate) (err : TranscriptionError) (s0 : ProcessorState)
    (item0 : VoxStatusItem) (herr : err ≠ .rateLimit)
    (h0 : s0.items c.hash = some item0) (hrc : item0.retryCount = 0) :
    ∀ n, n < settings.maxRetries →
      ∃ item, (failAttempts settings qp tm c err s0 n).items c.hash = some item ∧
        item.retryCount = n := by
  intro n
  induction n with
  | zero => exact fun _ => ⟨item0, h0, hrc⟩
  | succ k ih =>
      intro hlt
      obtain ⟨item, hit, hcount⟩ := ih (Nat.lt_of_succ_lt hlt)
      have hp := processFail_existing settings qp (tm k) (tm k) (tm k) c err
        (failAttempts settings qp tm c err s0 k) item herr hit
      exact ⟨_, hp.1, by simp [hcount]⟩

/-- C2: a tracked candidate (retryCount 0) that fails maxRetries times with a
non-rate-limit error ends with status FAILED and retryCount = maxRetries, is
excluded by both the permanent-failure check and the discovery scan's
selection test, and the final attempt's decision is permanentFailure (no
retry scheduled); whereas after maxRetries - 1 failures a successful attempt
ends with status COMPLETE and retryCount = maxRetries - 1. -/
theorem maxRetries_cutoff (settings : Settings) (qp : Bool) (tm : Nat → Nat)
    (t1 t2 t3 : Nat) (c : TranscriptionCandidate) (err : TranscriptionError)
    (s0 : ProcessorState) (item0 : VoxStatusItem) (txt : String)
    (segs : List TranscriptionSegment)
    (herr : err ≠ .rateLimit) (h0 : s0.items c.hash = some item0)
    (hrc : item0.retryCount = 0) (hm : 0 < settings.maxRetries)
    (htxt : txt ≠ "") (hsegs : segs ≠ []) :
    (∃ item,
        (failAttempts settings qp tm c err s0 settings.maxRetries).items c.hash = some item ∧
        item.status = .FAILED ∧ item.retryCount = settings.maxRetries) ∧
    hasExceededMaxRetries settings
      (failAttempts settings qp tm c err s0 settings.maxRetries) c = true ∧
    selectedByScan settings
      (failAttempts settings qp tm c err s0 settings.maxRetries) c = false ∧
    (processFileTranscription settings qp t1 t2 t3 c (.throws err)
        (failAttempts settings qp tm c err s0 (settings.maxRetries - 1))).2 =
      some .permanentFailure ∧
    (∃ item,
        (processFileTranscription settings qp t1 t2 t3 c
            (.resolves true 200 { text := some txt, segments := .value segs })
            (failAttempts settings qp tm c err s0 (settings.maxRetries - 1))).1.items c.hash =
          some item ∧
        item.status = .COMPLETE ∧ item.retryCount = settings.maxRetries - 1) := by
  obtain ⟨m, hm2⟩ : ∃ m, settings.maxRetries = m + 1 := ⟨settings.maxRetries - 1, by omega⟩
  rw [hm2]
  simp only [Nat.add_sub_cancel]
  obtain ⟨item, hit, hcount⟩ :=
    failAttempts_tracked settings qp tm c err s0 item0 herr h0 hrc m (by omega)
  have hcond : settings.maxRetries ≤ item.retryCount + 1 := by omega
  have hp := processFail_existing settings qp (tm m) (tm m) (tm m) c err
    (failAttempts settings qp tm c err s0 m) item herr hit
  rw [if_pos hcond, if_pos hcond, if_pos hcond] at hp
  have hfin : (failAttempts settings qp tm c err s0 (m + 1)).items c.hash =
      some { item with
        retryCount := item.retryCount + 1, lastRetryAt := some (tm m),
        status := .FAILED, finalizedAt := some (tm m) } := hp.1
  refine ⟨⟨_, hfin, by simp, by simp [hcount]⟩, ?_, ?_, ?_, ?_⟩
  · simp [hasExceededMaxRetries, hfin, hcount]
    omega
  · have hex : hasExceededMaxRetries settings
        (failAttempts settings qp tm c err s0 (m + 1)) c = true := by
      simp [hasExceededMaxRetries, hfin, hcount]
      omega
    simp [selectedByScan, hex]
  · have hp2 := processFail_existing settings qp t1 t2 t3 c err
      (failAttempts settings qp tm c err s0 m) item herr hit
    rw [hp2.2, if_pos hcond]
  · have hs := processSuccess_existing settings qp t1 t2 t3 c
      (failAttempts settings qp tm c err s0 m) item txt segs htxt hsegs hit
    exact ⟨_, hs.1, by simp, by simp [hcount]⟩

/-- A session state with cand1 queued at time 0, and its QUEUED record, used
by the closed witnesses and counterexamples. -/
def queuedState1 : ProcessorState :=
  setCanditateStatus false 0 cand1 .QUEUED emptyState

/-- The record queuedState1 holds for cand1. -/
def queuedItem1 : VoxStatusItem :=
  { hash := "h1", details := cand1, status := .QUEUED, addedAt := 0,
    finalizedAt := none, retryCount := 0, lastRetryAt := none }

/-- A concrete transcript segment for the witnesses. -/
def seg1 : TranscriptionSegment := { id := 0, text := "hello" }

/-- C2 witness: the max-retry cutoff at the default settings (maxRetries 3)
for a freshly queued candidate. -/
theorem maxRetries_cutoff_witness :
    (TranscriptionError.generic ≠ TranscriptionError.rateLimit) ∧
    queuedState1.items cand1.hash = some queuedItem1 ∧
    queuedItem1.retryCount = 0 ∧
    0 < defaultSettings.maxRetries ∧
    ("hello" : String) ≠ "" ∧
    ([seg1] : List TranscriptionSegment) ≠ [] ∧
    ((∃ item,
        (failAttempts defaultSettings false (fun n => 1000 * n) cand1 .generic queuedState1
            defaultSettings.maxRetries).items cand1.hash = some item ∧
        item.status = .FAILED ∧ item.retryCount = defaultSettings.maxRetries) ∧
    hasExceededMaxRetries defaultSettings
      (failAttempts defaultSettings false (fun n => 1000 * n) cand1 .generic queuedState1
        defaultSettings.maxRetries) cand1 = true ∧
    selectedByScan defaultSettings
      (failAttempts defaultSettings false (fun n => 1000 * n) cand1 .generic queuedState1
        defaultSettings.maxRetries) cand1 = false ∧
    (processFileTranscription defaultSettings false 50 51 52 cand1 (.throws .generic)
        (failAttempts defaultSettings false (fun n => 1000 * n) cand1 .generic queuedState1
          (defaultSettings.maxRetries - 1))).2 =
      some .permanentFailure ∧
    (∃ item,
        (processFileTranscription defaultSettings false 50 51 52 cand1
            (.resolves true 200 { text := some "hello", segments := .value [seg1] })
            (failAttempts defaultSettings false (fun n => 1000 * n) cand1 .generic queuedState1
              (defaultSettings.maxRetries - 1))).1.items cand1.hash =
          some item ∧
        item.status = .COMPLETE ∧ item.retryCount = defaultSettings.maxRetries - 1)) :=
  ⟨by decide, by decide, by decide, by decide, by decide, by decide,
    maxRetries_cutoff defaultSettings false (fun n => 1000 * n) 50 51 52 cand1 .generic
      queuedState1 queuedItem1 "hello" [seg1] (by decide) (by decide) (by decide) (by decide)
      (by decide) (by decide)⟩

/-- C3: a first attempt (untracked candidate, so the worker creates the
record with retryCount 0) that fails with a rate-limit (HTTP 429) error:
the handler's decision is pauseQueue (the whole queue is paused, no retry is
scheduled for the candidate), the record ends FAILED with retryCount = 1,
and when maxRetries > 1 the permanent-failure filter does not exclude it, so
the not-yet-transcribed candidate stays eligible for re-discovery after
resume. -/
theorem quotaPause_spec (settings : Settings) (qp : Bool) (t1 t2 t3 : Nat)
    (c : TranscriptionCandidate) (s0 : ProcessorState)
    (h0 : s0.items c.hash = none) (hm : 1 < settings.maxRetries)
    (htr : c.isTranscribed = false) :
    (processFileTranscription settings qp t1 t2 t3 c (.throws .rateLimit) s0).2 =
      some .pauseQueue ∧
    (∃ item,
        (processFileTranscription settings qp t1 t2 t3 c (.throws .rateLimit) s0).1.items c.hash =
          some item ∧ item.status = .FAILED ∧ item.retryCount = 1) ∧
    hasExceededMaxRetries settings
      (processFileTranscription settings qp t1 t2 t3 c (.throws .rateLimit) s0).1 c = false ∧
    selectedByScan settings
      (processFileTranscription settings qp t1 t2 t3 c (.throws .rateLimit) s0).1 c = true := by
  have e1 := setCanditateStatus_fresh qp t1 c VoxStatusItemStatus.PROCESSING_AUDIO s0 h0
  have e1n : (setCanditateStatus qp t1 c VoxStatusItemStatus.PROCESSING_AUDIO s0).items c.hash =
      some { hash := c.hash, details := c, status := VoxStatusItemStatus.PROCESSING_AUDIO, addedAt := t1,
             finalizedAt := none, retryCount := 0, lastRetryAt := none } := by
    simpa using e1
  have e2 := setCanditateStatus_existing qp t2 c .TRANSCRIBING
    (setCanditateStatus qp t1 c VoxStatusItemStatus.PROCESSING_AUDIO s0) _ e1n
  have e2n : (setCanditateStatus qp t2 c .TRANSCRIBING
      (setCanditateStatus qp t1 c VoxStatusItemStatus.PROCESSING_AUDIO s0)).items c.hash =
      some { hash := c.hash, details := c, status := .TRANSCRIBING, addedAt := t1,
             finalizedAt := none, retryCount := 0, lastRetryAt := none } := by
    simpa using e2
  have hh := handleError_rateLimit settings qp t3 c _ _ e2n
  have hfin : (processFileTranscription settings qp t1 t2 t3 c (.throws .rateLimit) s0).1.items c.hash =
      some { hash := c.hash, details := c, status := .FAILED, addedAt := t1,
             finalizedAt := some t3, retryCount := 1, lastRetryAt := some t3 } := by
    simp only [processFileTranscription]
    simpa using hh.1
  have hex : hasExceededMaxRetries settings
      (processFileTranscription settings qp t1 t2 t3 c (.throws .rateLimit) s0).1 c = false := by
    simp [hasExceededMaxRetries, hfin]
    omega
  refine ⟨?_, ⟨_, hfin, by simp, by simp⟩, hex, ?_⟩
  · simp only [processFileTranscription]
    simpa using hh.2
  · simp [selectedByScan, htr, hex]

/-- C3 witness: the quota-pause behaviour at the default settings for cand1
first attempted on the empty session. -/
theorem quotaPause_spec_witness :
    emptyState.items cand1.hash = none ∧
    1 < defaultSettings.maxRetries ∧
    cand1.isTranscribed = false ∧
    ((processFileTranscription defaultSettings false 10 11 12 cand1 (.throws .rateLimit)
        emptyState).2 = some .pauseQueue ∧
    (∃ item,
        (processFileTranscription defaultSettings false 10 11 12 cand1 (.throws .rateLimit)
            emptyState).1.items cand1.hash =
          some item ∧ item.status = .FAILED ∧ item.retryCount = 1) ∧
    hasExceededMaxRetries defaultSettings
      (processFileTranscription defaultSettings false 10 11 12 cand1 (.throws .rateLimit)
        emptyState).1 cand1 = false ∧
    selectedByScan defaultSettings
      (processFileTranscription defaultSettings false 10 11 12 cand1 (.throws .rateLimit)
        emptyState).1 cand1 = true) :=
  ⟨rfl, by decide, by decide,
    quotaPause_spec defaultSettings false 10 11 12 cand1 emptyState rfl (by decide) (by decide)⟩

/-- C4 counterexample: the discovery scan does re-select a tracked
non-terminal candidate. After a first scan queues cand1 (its record shows
status QUEUED, not transcribed), the per-file selection test of the next
scan still selects it, so re-running discovery on an unchanged directory
adds the in-flight candidate to the queue again. -/
theorem rescan_requeues_queued_cex :
    (∃ item, (queueFiles false 0 [cand1] emptyState).items cand1.hash = some item ∧
        item.status = .QUEUED) ∧
    selectedByScan defaultSettings (queueFiles false 0 [cand1] emptyState) cand1 = true :=
  ⟨⟨queuedItem1, by decide, by decide⟩, by decide⟩

/-- C4 amended: the scan's per-file test excludes only already-transcribed
candidates and permanently-failed ones (status FAILED with retryCount at
least maxRetries); a not-yet-transcribed candidate whose record has the
non-terminal status QUEUED, PROCESSING_AUDIO or TRANSCRIBING is selected
again by a repeated scan. -/
theorem rescan_filter_amended (settings : Settings) (s : ProcessorState)
    (c : TranscriptionCandidate) (item : VoxStatusItem)
    (htr : c.isTranscribed = false) (h : s.items c.hash = some item)
    (hst : item.status = .QUEUED ∨ item.status = VoxStatusItemStatus.PROCESSING_AUDIO ∨
      item.status = .TRANSCRIBING) :
    selectedByScan settings s c = true ∧ hasExceededMaxRetries settings s c = false := by
  have hx : hasExceededMaxRetries settings s c = false := by
    rcases hst with h1 | h1 | h1 <;> simp [hasExceededMaxRetries, h, h1]
  exact ⟨by simp [selectedByScan, htr, hx], hx⟩

/-- C4 witness: the amended selection behaviour on the queued session state
for cand1. -/
theorem rescan_filter_amended_witness :
    cand1.isTranscribed = false ∧
    queuedState1.items cand1.hash = some queuedItem1 ∧
    (queuedItem1.status = .QUEUED ∨ queuedItem1.status = VoxStatusItemStatus.PROCESSING_AUDIO ∨
      queuedItem1.status = .TRANSCRIBING) ∧
    (selectedByScan defaultSettings queuedState1 cand1 = true ∧
      hasExceededMaxRetries defaultSettings queuedState1 cand1 = false) :=
  ⟨by decide, by decide, by decide,
    rescan_filter_amended defaultSettings queuedState1 cand1 queuedItem1
      (by decide) (by decide) (by decide)⟩

/-- C5 counterexample: queueFile does not create a LifecycleRecord at
enqueue time. cand1 is untracked in the empty session, and after queueFile
it is still untracked (in particular there is no record with status
QUEUED). -/
theorem queueFile_no_record_cex :
    emptyState.items cand1.hash = none ∧
    (queueFile [] cand1 emptyState).2.items cand1.hash = none :=
  ⟨rfl, rfl⟩

/-- C5 amended: queueFile only appends the processing job to the queue and
leaves the StatusMap untouched; an untracked candidate's LifecycleRecord is
first created when a worker begins processing it, with status
PROCESSING_AUDIO and retryCount 0 (the batch enqueue queueFiles, by
contrast, does create the record with status QUEUED at enqueue time). -/
theorem queueFile_amended (pending : List TranscriptionCandidate)
    (c : TranscriptionCandidate) (s : ProcessorState) (qp : Bool) (now : Nat)
    (h : s.items c.hash = none) :
    (queueFile pending c s).2 = s ∧
    (queueFile pending c s).1 = pending ++ [c] ∧
    (∃ item, (setCanditateStatus qp now c VoxStatusItemStatus.PROCESSING_AUDIO s).items c.hash = some item ∧
        item.status = VoxStatusItemStatus.PROCESSING_AUDIO ∧ item.retryCount = 0 ∧ item.addedAt = now) ∧
    (∃ item, (queueFiles qp now [c] s).items c.hash = some item ∧
        item.status = .QUEUED ∧ item.retryCount = 0) := by
  refine ⟨rfl, rfl, ?_, ?_⟩
  · refine ⟨_, setCanditateStatus_fresh qp now c VoxStatusItemStatus.PROCESSING_AUDIO s h, ?_, ?_, ?_⟩ <;> simp
  · have hq : queueFiles qp now [c] s = setCanditateStatus qp now c .QUEUED s := rfl
    rw [hq]
    refine ⟨_, setCanditateStatus_fresh qp now c .QUEUED s h, ?_, ?_⟩ <;> simp

/-- C5 witness: the amended enqueue behaviour for cand1 on the empty
session. -/
theorem queueFile_amended_witness :
    emptyState.items cand1.hash = none ∧
    ((queueFile [] cand1 emptyState).2 = emptyState ∧
      (queueFile [] cand1 emptyState).1 = [] ++ [cand1] ∧
      (∃ item,
          (setCanditateStatus false 3 cand1 VoxStatusItemStatus.PROCESSING_AUDIO emptyState).items cand1.hash =
            some item ∧
          item.status = VoxStatusItemStatus.PROCESSING_AUDIO ∧ item.retryCount = 0 ∧ item.addedAt = 3) ∧
      (∃ item, (queueFiles false 3 [cand1] emptyState).items cand1.hash = some item ∧
          item.status = .QUEUED ∧ item.retryCount = 0)) :=
  ⟨rfl, queueFile_amended [] cand1 emptyState false 3 rfl⟩

/-- C9: a transcription call that resolves (HTTP 200 with a body) whose
payload has falsy text, a missing or non-array segments field, or an empty
segments array is processed exactly like a call that throws a plain error:
the resulting state transition and handler decision coincide, so the
malformed success is routed to the retry handler rather than accepted. -/
theorem malformed_treated_as_error (settings : Settings) (qp : Bool)
    (t1 t2 t3 : Nat) (c : TranscriptionCandidate) (s : ProcessorState)
    (r : RawTranscriptionResponse)
    (hbad : textFalsy r.text = true ∨ r.segments = .missing ∨ r.segments = .notArray ∨
      r.segments = .value []) :
    processFileTranscription settings qp t1 t2 t3 c (.resolves true 200 r) s =
      processFileTranscription settings qp t1 t2 t3 c (.throws .generic) s := by
  have hv : ∃ e, transcribeValidate true 200 r = Except.error e := by
    by_cases ht : textFalsy r.text = true
    · exact ⟨"Invalid transcription response: missing required fields",
        by simp [transcribeValidate, ht]⟩
    · rcases hbad with hb | hb | hb | hb
      · exact absurd hb ht
      · exact ⟨"Invalid transcription response: missing required fields",
          by simp [transcribeValidate, ht, hb]⟩
      · exact ⟨"Invalid transcription response: missing required fields",
          by simp [transcribeValidate, ht, hb]⟩
      · exact ⟨"Transcription returned empty segments array",
          by simp [transcribeValidate, ht, hb]⟩
  obtain ⟨e, hv⟩ := hv
  simp [processFileTranscription, hv]

/-- A resolved response with an empty text field, used by the C9 witness. -/
def badResponse1 : RawTranscriptionResponse :=
  { text := some "", segments := .value [seg1] }

/-- C9 witness: a resolved response whose text is the empty string is
treated exactly like a thrown error on the empty session. -/
theorem malformed_treated_as_error_witness :
    (textFalsy badResponse1.text = true ∨ badResponse1.segments = .missing ∨
      badResponse1.segments = .notArray ∨ badResponse1.segments = .value []) ∧
    processFileTranscription defaultSettings false 1 2 3 cand1
        (.resolves true 200 badResponse1) emptyState =
      processFileTranscription defaultSettings false 1 2 3 cand1
        (.throws .generic) emptyState :=
  ⟨by decide,
    malformed_treated_as_error defaultSettings false 1 2 3 cand1 emptyState badResponse1
      (by decide)⟩

/-! The file-stability polling loop. -/

/-- C6: over any stat trace in which the file's observed size is 0 at every
poll, the wait never resolves as stable (however many polls occur and
however much time passes), and each zero-size observation resets the
stability tracking (lastSize and stableStartTime both back to null) while
polling continues. -/
theorem zeroSize_never_stable (d : Nat) (st : StabState)
    (trace : List (Nat × Nat)) (hz : ∀ x ∈ trace, x.2 = 0) :
    runStabilityTime d st trace = none ∧
    (trace = [] ∨ runState d st trace = some initStabState) := by
  induction trace generalizing st with
  | nil => exact ⟨rfl, Or.inl rfl⟩
  | cons p rest ih =>
      obtain ⟨now, size⟩ := p
      have hsz : size = 0 := hz (now, size) (List.mem_cons_self _ _)
      subst hsz
      have hcheck : checkFile d st now 0 = .keepPolling initStabState := by
        simp [checkFile, initStabState]
      have hrest := ih initStabState (fun x hx => hz x (List.mem_cons_of_mem _ hx))
      constructor
      · simp [runStabilityTime, hcheck, hrest.1]
      · right
        rcases hrest.2 with hnil | hrun
        · subst hnil
          simp [runState, hcheck]
        · simp [runState, hcheck, hrun]

/-- C6 witness: a trace of three zero-size polls spread over an arbitrarily
long time never resolves and leaves the tracking reset. -/
theorem zeroSize_never_stable_witness :
    (∀ x ∈ ([(0, 0), (1000, 0), (999999999, 0)] : List (Nat × Nat)), x.2 = 0) ∧
    (runStabilityTime 3000 { lastSize := some 5, stableStartTime := some 3 }
        [(0, 0), (1000, 0), (999999999, 0)] = none ∧
      ([(0, 0), (1000, 0), (999999999, 0)] = ([] : List (Nat × Nat)) ∨
        runState 3000 { lastSize := some 5, stableStartTime := some 3 }
          [(0, 0), (1000, 0), (999999999, 0)] = some initStabState)) :=
  ⟨by decide,
    zeroSize_never_stable 3000 { lastSize := some 5, stableStartTime := some 3 }
      [(0, 0), (1000, 0), (999999999, 0)] (by decide)⟩

/-- Splitting a polling run: if the loop is still polling with state st2
after the prefix p, the run over p ++ q continues as the run over q from
st2. -/
theorem runStabilityTime_append (d : Nat) :
    ∀ (p : List (Nat × Nat)) (st st2 : StabState) (q : List (Nat × Nat)),
      runState d st p = some st2 →
      runStabilityTime d st (p ++ q) = runStabilityTime d st2 q := by
  intro p
  induction p with
  | nil =>
      intro st st2 q h
      have h2 : st = st2 := by simpa [runState] using h
      subst h2
      rfl
  | cons x rest ih =>
      intro st st2 q h
      obtain ⟨now, size⟩ := x
      cases hc : checkFile d st now size with
      | resolved => simp [runState, hc] at h
      | keepPolling st3 =>
          have h2 : runState d st3 rest = some st2 := by simpa [runState, hc] using h
          simp [runStabilityTime, hc, ih st3 st2 q h2]

/-- If the run resolves at time t from a state whose stability timer (when
set) started no earlier than c, over a trace whose sample times are all at
least c, then t is at least c + d: the quiet period d must elapse after the
timer start before the wait resolves. -/
theorem stability_no_early_resolve (d : Nat) :
    ∀ (trace : List (Nat × Nat)) (st : StabState) (c t : Nat),
      (∀ x ∈ trace, c ≤ x.1) →
      (∀ ts, st.stableStartTime = some ts → c ≤ ts) →
      runStabilityTime d st trace = some t → c + d ≤ t := by
  intro trace
  induction trace with
  | nil =>
      intro st c t _ _ hrun
      simp [runStabilityTime] at hrun
  | cons p rest ih =>
      intro st c t hc hst hrun
      obtain ⟨now, size⟩ := p
      have hnow : c ≤ now := hc (now, size) (List.mem_cons_self _ _)
      have hcrest : ∀ x ∈ rest, c ≤ x.1 := fun x hx => hc x (List.mem_cons_of_mem _ hx)
      by_cases hsz : size = 0
      · subst hsz
        have hcheck : checkFile d st now 0 = .keepPolling initStabState := by
          simp [checkFile, initStabState]
        rw [runStabilityTime, hcheck] at hrun
        exact ih initStabState c t hcrest (fun ts h => by simp [initStabState] at h) hrun
      · cases hls : st.lastSize with
        | none =>
            have hcheck : checkFile d st now size =
                .keepPolling { lastSize := some size, stableStartTime := none } := by
              simp [checkFile, hsz, hls]
            rw [runStabilityTime, hcheck] at hrun
            exact ih _ c t hcrest (fun ts h => by simp at h) hrun
        | some last =>
            by_cases hne : size = last
            · subst hne
              cases hss : st.stableStartTime with
              | none =>
                  by_cases hd0 : d = 0
                  · subst hd0
                    have hcheck : checkFile 0 st now size = .resolved := by
                      simp [checkFile, hsz, hls, hss]
                    rw [runStabilityTime, hcheck] at hrun
                    have ht : t = now := by simpa using hrun.symm
                    omega
                  · have hcheck : checkFile d st now size =
                        .keepPolling { lastSize := some size, stableStartTime := some now } := by
                      simp [checkFile, hsz, hls, hss, hd0]
                    rw [runStabilityTime, hcheck] at hrun
                    exact ih _ c t hcrest
                      (fun ts h => by simp at h; omega) hrun
              | some ts0 =>
                  have hcts : c ≤ ts0 := hst ts0 hss
                  by_cases hd0 : d ≤ now - ts0
                  · have hcheck : checkFile d st now size = .resolved := by
                      simp [checkFile, hsz, hls, hss, hd0]
                    rw [runStabilityTime, hcheck] at hrun
                    have ht : t = now := by simpa using hrun.symm
                    omega
                  · have hcheck : checkFile d st now size =
                        .keepPolling { lastSize := some size, stableStartTime := some ts0 } := by
                      simp [checkFile, hsz, hls, hss, hd0]
                    rw [runStabilityTime, hcheck] at hrun
                    exact ih _ c t hcrest
                      (fun ts h => by simp at h; omega) hrun
            · have hcheck : checkFile d st now size =
                  .keepPolling { lastSize := some size, stableStartTime := none } := by
                simp [checkFile, hsz, hls, hne]
              rw [runStabilityTime, hcheck] at hrun
              exact ih _ c t hcrest (fun ts h => by simp at h) hrun

/-- C7: with a positive quiet period d, (a) a poll resolves the wait exactly
when the observed size is non-zero, equals the previously observed size,
and the stability timer was started at some ts with ts + d ≤ now; and
(b) along any run from the initial state, if the sample at time c is a size
change (zero size, or a size differing from the size observed over the
prefix) and the later samples occur at or after c, the wait resolves no
earlier than c + d: never earlier than the last observed size change plus
the quiet period. -/
theorem stability_quiet_period (d : Nat) (hd : 0 < d) :
    (∀ (st : StabState) (now size : Nat),
        checkFile d st now size = .resolved ↔
          size ≠ 0 ∧ st.lastSize = some size ∧
            ∃ ts, st.stableStartTime = some ts ∧ ts + d ≤ now) ∧
    (∀ (p q : List (Nat × Nat)) (c sz t : Nat) (sMid : StabState),
        runState d initStabState p = some sMid →
        (sz = 0 ∨ sMid.lastSize ≠ some sz) →
        (∀ x ∈ q, c ≤ x.1) →
        runStabilityTime d initStabState (p ++ (c, sz) :: q) = some t →
        c + d ≤ t) := by
  constructor
  · intro st now size
    constructor
    · intro h
      by_cases hsz : size = 0
      · simp [checkFile, hsz] at h
      · cases hls : st.lastSize with
        | none => simp [checkFile, hsz, hls] at h
        | some last =>
            by_cases hne : size = last
            · subst hne
              cases hss : st.stableStartTime with
              | none =>
                  have hdne : d ≠ 0 := by omega
                  simp [checkFile, hsz, hls, hss, hdne] at h
              | some ts0 =>
                  by_cases hd0 : d ≤ now - ts0
                  · exact ⟨hsz, rfl, ts0, rfl, by omega⟩
                  · simp [checkFile, hsz, hls, hss, hd0] at h
            · simp [checkFile, hsz, hls, hne] at h
    · rintro ⟨hsz, hls, ts0, hss, hts⟩
      have hd0 : d ≤ now - ts0 := by omega
      simp [checkFile, hsz, hls, hss, hd0]
  · intro p q c sz t sMid hp hchange hq hrun
    rw [runStabilityTime_append d p initStabState sMid ((c, sz) :: q) hp] at hrun
    have hstep : ∃ st2, checkFile d sMid c sz = .keepPolling st2 ∧
        st2.stableStartTime = none := by
      by_cases hsz : sz = 0
      · exact ⟨initStabState, by simp [checkFile, hsz, initStabState], rfl⟩
      · rcases hchange with h0 | hne
        · exact absurd h0 hsz
        · cases hls : sMid.lastSize with
          | none =>
              exact ⟨{ lastSize := some sz, stableStartTime := none },
                by simp [checkFile, hsz, hls], rfl⟩
          | some last =>
              have hne2 : sz ≠ last := by
                intro hx
                exact hne (by rw [hls, hx])
              exact ⟨{ lastSize := some sz, stableStartTime := none },
                by simp [checkFile, hsz, hls, hne2], rfl⟩
    obtain ⟨st2, hcheck, hnone⟩ := hstep
    rw [runStabilityTime, hcheck] at hrun
    exact stability_no_early_resolve d q st2 c t hq
      (fun ts h => by rw [hnone] at h; exact Option.noConfusion h) hrun

/-- C7 witness: the characterization at quiet period 3000 ms; on the trace
0, 512, 512, 512, 512 sampled at 0, 1000, 2000, 3000, 5000 the last size
change is at 1000 and the wait resolves at 5000, which is at least
1000 + 3000. -/
theorem stability_quiet_period_witness :
    0 < 3000 ∧
    ((∀ (st : StabState) (now size : Nat),
        checkFile 3000 st now size = .resolved ↔
          size ≠ 0 ∧ st.lastSize = some size ∧
            ∃ ts, st.stableStartTime = some ts ∧ ts + 3000 ≤ now) ∧
      (∀ (p q : List (Nat × Nat)) (c sz t : Nat) (sMid : StabState),
          runState 3000 initStabState p = some sMid →
          (sz = 0 ∨ sMid.lastSize ≠ some sz) →
          (∀ x ∈ q, c ≤ x.1) →
          runStabilityTime 3000 initStabState (p ++ (c, sz) :: q) = some t →
          c + 3000 ≤ t)) :=
  ⟨by decide, stability_quiet_period 3000 (by decide)⟩

end Vox
